import Mathlib

/-!
Verification of the togglelabs feature-flag backend against its
natural-language specification.

The Go handlers in `pkg/api/handlers` are embedded shallowly: each HTTP
handler becomes a pure Lean function from an application state and the
already-parsed request pieces to an HTTP status code, an optional response
body, and the resulting application state.  MongoDB ObjectIDs are modelled
as `Nat`; the document collections become Lean lists.  Parts of the
repository that are referenced but whose source is not available (the
`models` repository layer, the `apiutils` helpers, the sign-in handler)
are modelled from the specification; each such definition carries a
doc comment saying so.
-/

/-- Status of a feature-flag revision: the spec's state set is exactly
Draft and Live. -/
inductive RevisionStatus
  | Draft
  | Live
deriving DecidableEq, Repr

/-- Modelled from the spec: a Rule is "opaque structured condition data".
We give it two string fields; the validator's `required` check on a rule
means the rule is not the zero value (all fields empty). -/
structure Rule where
  predicate : String
  value : String
deriving DecidableEq, Repr

/-- A rule is the zero value (what the `required` validation tag rejects). -/
def Rule.isZero (r : Rule) : Bool :=
  r.predicate == "" && r.value == ""

/-- Modelled from the spec: `models.RevisionRecord` (not in src).  A
revision has an identifier, a default value, rules, a status and an
author reference. -/
structure Revision where
  id : Nat
  defaultValue : String
  rules : List Rule
  status : RevisionStatus
  userId : Nat
deriving DecidableEq, Repr

/-- Flag type, restricted to the enumerated set from
`PostFeatureFlagRequest`'s `oneof=boolean json string number` tag. -/
inductive FlagType
  | boolean
  | json
  | stringType
  | number
deriving DecidableEq, Repr

/-- Modelled from the spec: `models.FeatureFlagRecord` (not in src).
Identifier, name, type, owning organization, creator, version counter,
ordered revision list, soft-delete timestamp. -/
structure FeatureFlag where
  id : Nat
  name : String
  type : FlagType
  orgId : Nat
  userId : Nat
  version : Nat
  revisions : List Revision
  deletedAt : Option Nat
deriving DecidableEq, Repr

/-- Organization membership privilege levels. -/
inductive Role
  | ReadOnly
  | Collaborator
deriving DecidableEq, Repr

/-- Modelled from the spec: an organization member is a user reference
together with a role. -/
structure Member where
  userId : Nat
  role : Role
deriving DecidableEq, Repr

/-- Modelled from the spec: `models.OrganizationRecord` (not in src):
identifier plus a collection of members, each with a role. -/
structure OrganizationRecord where
  id : Nat
  members : List Member
deriving DecidableEq, Repr

/-- Numeric privilege order: Collaborator is at least as privileged as
ReadOnly (spec 4.2 role ordering). -/
def roleLevel : Role → Nat
  | .ReadOnly => 1
  | .Collaborator => 2

/-- Modelled from the spec: `apiutils.UserHasPermission` (not in src).
Given the acting user's id, an organization record and a required role
level, it returns whether the user's membership role is at least as
privileged as required, and false (not an error) when the user is not a
member. -/
def UserHasPermission (userId : Nat) (org : OrganizationRecord) (required : Role) : Bool :=
  match org.members.find? (fun m => m.userId == userId) with
  | some m => roleLevel required ≤ roleLevel m.role
  | none => false

/-!
## Revision approval core

Embedding of the loop in `ApproveRevision` (signup_handler.go:479-487):

    for index, revision := range featureFlagRecord.Revisions {
        if revision.Status == models.Live {
            featureFlagRecord.Revisions[index].Status = models.Draft
        }
        if revision.ID == revisionID && revision.Status != models.Live {
            featureFlagRecord.Revisions[index].Status = models.Live
        }
    }
    featureFlagRecord.Version++

Each iteration reads and writes only the element at its own index, so the
loop is a pointwise map over the list.  The element type of `Revisions`
lives in the `models` package, which is not in src; the spec (4.6 step 3)
fixes the intended single-pass semantics — the demotion performed by the
first `if` is visible to the second `if` of the same iteration, "so that
the target revision ends Live even if previously Live" — so the loop body
is modelled with that in-iteration visibility.
-/

/-- One iteration of the `ApproveRevision` loop, acting on the revision at
the current index.  First the demotion `if`, then the promotion `if`
reading the demoted value (in-iteration visibility, modelled from the
spec's single-pass description). -/
def approveLoopBody (revisionID : Nat) (r : Revision) : Revision :=
  let r1 := if r.status = RevisionStatus.Live then { r with status := RevisionStatus.Draft } else r
  if r.id = revisionID ∧ r1.status ≠ RevisionStatus.Live then
    { r1 with status := RevisionStatus.Live }
  else r1

/-- The whole loop: a pointwise map in index order. -/
def approveRevisions (revisionID : Nat) (revs : List Revision) : List Revision :=
  revs.map (approveLoopBody revisionID)

/-- The in-memory mutation `ApproveRevision` performs on the loaded flag
record: rewrite the revision list and increment the version counter
unconditionally. -/
def approveRevisionOnFlag (revisionID : Nat) (f : FeatureFlag) : FeatureFlag :=
  { f with
    revisions := approveRevisions revisionID f.revisions
    version := f.version + 1 }

/-- Closed form of the loop body: the target revision always ends Live
(the demotion of the first branch is never Live, so the promotion guard
always passes for the target); any other Live revision is demoted. -/
theorem approveLoopBody_eq (revisionID : Nat) (r : Revision) :
    approveLoopBody revisionID r =
      if r.id = revisionID then { r with status := RevisionStatus.Live }
      else if r.status = RevisionStatus.Live then { r with status := RevisionStatus.Draft }
      else r := by
  rcases r with ⟨id, dv, rl, st, uid⟩
  by_cases h : id = revisionID <;> cases st <;>
    simp [approveLoopBody, h]

theorem approveLoopBody_id (revisionID : Nat) (r : Revision) :
    (approveLoopBody revisionID r).id = r.id := by
  rw [approveLoopBody_eq]
  by_cases h : r.id = revisionID <;> by_cases h2 : r.status = RevisionStatus.Live <;>
    simp [h, h2]

theorem approveLoopBody_status (revisionID : Nat) (r : Revision) :
    (approveLoopBody revisionID r).status =
      if r.id = revisionID then RevisionStatus.Live
      else RevisionStatus.Draft := by
  rw [approveLoopBody_eq]
  by_cases h : r.id = revisionID <;> by_cases h2 : r.status = RevisionStatus.Live <;>
    cases hr : r.status <;> simp_all

/-- A list whose ids are nodup has exactly one element carrying an id that
occurs in it. -/
theorem countP_id_eq_one (rid : Nat) (l : List Revision)
    (hnodup : (l.map Revision.id).Nodup)
    (hmem : ∃ r ∈ l, r.id = rid) :
    l.countP (fun r => r.id == rid) = 1 := by
  induction l with
  | nil => rcases hmem with ⟨r, hr, _⟩; cases hr
  | cons a l ih =>
    simp only [List.map_cons, List.nodup_cons] at hnodup
    by_cases ha : a.id = rid
    · have hzero : l.countP (fun r => r.id == rid) = 0 := by
        apply List.countP_eq_zero.2
        intro r hr
        simp only [beq_iff_eq]
        intro hcontra
        exact hnodup.1 (by rw [ha, ← hcontra]; exact List.mem_map_of_mem Revision.id hr)
      rw [List.countP_cons_of_pos _ _ (by simpa using ha), hzero]
    · rcases hmem with ⟨r, hr, hrid⟩
      rcases List.mem_cons.1 hr with rfl | hr'
      · exact absurd hrid ha
      · rw [List.countP_cons_of_neg _ _ (by simpa using ha)]
        exact ih hnodup.2 ⟨r, hr', hrid⟩

/-- Pointwise: after the loop, a revision's status reads Live exactly when
its id is the approval target. -/
theorem approveLoopBody_live_beq (revisionID : Nat) (r : Revision) :
    ((approveLoopBody revisionID r).status == RevisionStatus.Live) = (r.id == revisionID) := by
  rw [approveLoopBody_status]
  by_cases h : r.id = revisionID <;> simp [h]

/-- A map that fixes every member of a list is the identity on it. -/
theorem map_id_of_mem {α : Type} (f : α → α) (l : List α)
    (h : ∀ a ∈ l, f a = a) : l.map f = l := by
  rw [List.map_congr_left h, List.map_id']

/-- C1: approving a Draft revision R of a flag that has a Live revision
L ≠ R leaves exactly one Live revision, namely the one carrying the
target id, and increments the version counter by exactly 1. -/
theorem approve_promotes_draft_unique_live (f : FeatureFlag) (rid : Nat)
    (hnodup : (f.revisions.map Revision.id).Nodup)
    (_hlive : ∃ L ∈ f.revisions, L.status = RevisionStatus.Live)
    (htarget : ∃ R ∈ f.revisions, R.id = rid ∧ R.status = RevisionStatus.Draft) :
    ((approveRevisionOnFlag rid f).revisions.countP
        (fun r => r.status == RevisionStatus.Live) = 1)
      ∧ (∀ r ∈ (approveRevisionOnFlag rid f).revisions,
          r.status = RevisionStatus.Live → r.id = rid)
      ∧ (approveRevisionOnFlag rid f).version = f.version + 1 := by
  refine ⟨?_, ?_, rfl⟩
  · show (List.map (approveLoopBody rid) f.revisions).countP _ = 1
    rw [List.countP_map]
    have hpt : f.revisions.countP
        ((fun r => r.status == RevisionStatus.Live) ∘ approveLoopBody rid)
        = f.revisions.countP (fun r => r.id == rid) := by
      apply List.countP_congr
      intro r _
      simp only [Function.comp_apply, approveLoopBody_live_beq]
    rw [hpt]
    rcases htarget with ⟨R, hR, hRid, _⟩
    exact countP_id_eq_one rid f.revisions hnodup ⟨R, hR, hRid⟩
  · intro r hr hrl
    rcases List.mem_map.1 hr with ⟨s, hs, rfl⟩
    rw [approveLoopBody_status] at hrl
    by_cases h : s.id = rid
    · rw [approveLoopBody_id, h]
    · simp [h] at hrl

/-- Concrete inputs for the approval theorems. -/
def revA : Revision :=
  { id := 1, defaultValue := "on", rules := [], status := RevisionStatus.Live, userId := 10 }

def revB : Revision :=
  { id := 2, defaultValue := "off", rules := [], status := RevisionStatus.Draft, userId := 11 }

def flagW : FeatureFlag :=
  { id := 100, name := "dark-mode", type := FlagType.boolean, orgId := 5, userId := 10,
    version := 3, revisions := [revA, revB], deletedAt := none }

/-- Witness for C1 at the concrete flag `flagW` with target revision 2. -/
theorem approve_promotes_draft_unique_live_witness :
    (flagW.revisions.map Revision.id).Nodup
      ∧ (∃ L ∈ flagW.revisions, L.status = RevisionStatus.Live)
      ∧ (∃ R ∈ flagW.revisions, R.id = 2 ∧ R.status = RevisionStatus.Draft)
      ∧ (((approveRevisionOnFlag 2 flagW).revisions.countP
            (fun r => r.status == RevisionStatus.Live) = 1)
          ∧ (∀ r ∈ (approveRevisionOnFlag 2 flagW).revisions,
              r.status = RevisionStatus.Live → r.id = 2)
          ∧ (approveRevisionOnFlag 2 flagW).version = flagW.version + 1) :=
  ⟨by decide, ⟨revA, by decide, by decide⟩, ⟨revB, by decide, by decide⟩,
    approve_promotes_draft_unique_live flagW 2 (by decide)
      ⟨revA, by decide, by decide⟩ ⟨revB, by decide, by decide⟩⟩

/-- C2: approving the revision that is currently Live (the only Live one)
leaves the revision list unchanged — in particular that revision is still
Live — while the version counter is still incremented by 1. -/
theorem approve_live_target_unchanged (f : FeatureFlag) (rid : Nat) (R : Revision)
    (hnodup : (f.revisions.map Revision.id).Nodup)
    (hmem : R ∈ f.revisions) (hid : R.id = rid)
    (hlive : R.status = RevisionStatus.Live)
    (hunique : ∀ r ∈ f.revisions, r.status = RevisionStatus.Live → r = R) :
    (approveRevisionOnFlag rid f).revisions = f.revisions
      ∧ (approveRevisionOnFlag rid f).version = f.version + 1 := by
  refine ⟨?_, rfl⟩
  show f.revisions.map (approveLoopBody rid) = f.revisions
  apply map_id_of_mem
  intro r hr
  rw [approveLoopBody_eq]
  by_cases h : r.id = rid
  · have hrR : r = R :=
      List.inj_on_of_nodup_map hnodup hr hmem (by rw [h, hid])
    subst hrR
    rw [if_pos h, ← hlive]
  · have hnl : r.status ≠ RevisionStatus.Live := by
      intro hcontra
      exact h ((hunique r hr hcontra) ▸ hid)
    simp [h, hnl]

/-- Witness for C2 at the concrete flag `flagW`, approving the Live
revision 1 again. -/
theorem approve_live_target_unchanged_witness :
    (flagW.revisions.map Revision.id).Nodup
      ∧ revA ∈ flagW.revisions ∧ revA.id = 1
      ∧ revA.status = RevisionStatus.Live
      ∧ (∀ r ∈ flagW.revisions, r.status = RevisionStatus.Live → r = revA)
      ∧ ((approveRevisionOnFlag 1 flagW).revisions = flagW.revisions
          ∧ (approveRevisionOnFlag 1 flagW).version = flagW.version + 1) :=
  ⟨by decide, by decide, by decide, by decide, by decide,
    approve_live_target_unchanged flagW 1 revA (by decide) (by decide) (by decide)
      (by decide) (by decide)⟩

/-- C3: approving a target id that occurs nowhere in the revision list
demotes every Live revision to Draft, leaves no revision Live (every
revision ends Draft), and still increments the version counter by 1. -/
theorem approve_missing_target_all_draft (f : FeatureFlag) (rid : Nat)
    (habsent : ∀ r ∈ f.revisions, r.id ≠ rid) :
    (approveRevisionOnFlag rid f).revisions =
        f.revisions.map (fun r =>
          if r.status = RevisionStatus.Live then { r with status := RevisionStatus.Draft } else r)
      ∧ (∀ r ∈ (approveRevisionOnFlag rid f).revisions, r.status = RevisionStatus.Draft)
      ∧ (approveRevisionOnFlag rid f).version = f.version + 1 := by
  refine ⟨?_, ?_, rfl⟩
  · apply List.map_congr_left
    intro r hr
    rw [approveLoopBody_eq]
    simp [habsent r hr]
  · intro r hr
    rcases List.mem_map.1 hr with ⟨s, hs, rfl⟩
    rw [approveLoopBody_status]
    simp [habsent s hs]

/-- Witness for C3 at the concrete flag `flagW` with the absent target
id 99. -/
theorem approve_missing_target_all_draft_witness :
    (∀ r ∈ flagW.revisions, r.id ≠ 99)
      ∧ ((approveRevisionOnFlag 99 flagW).revisions =
            flagW.revisions.map (fun r =>
              if r.status = RevisionStatus.Live then { r with status := RevisionStatus.Draft } else r)
          ∧ (∀ r ∈ (approveRevisionOnFlag 99 flagW).revisions, r.status = RevisionStatus.Draft)
          ∧ (approveRevisionOnFlag 99 flagW).version = flagW.version + 1) :=
  ⟨by decide, approve_missing_target_all_draft flagW 99 (by decide)⟩

/-- C4: the permission check is pure and monotone in the role order —
with a membership whose role is Collaborator both the ReadOnly-level and
the Collaborator-level checks pass; with role ReadOnly only the
ReadOnly-level check passes; a non-member fails both, getting false
rather than an error. -/
theorem user_has_permission_levels (u : Nat) (org : OrganizationRecord) :
    (∀ m, org.members.find? (fun x => x.userId == u) = some m →
        (m.role = Role.Collaborator →
          UserHasPermission u org Role.ReadOnly = true ∧
          UserHasPermission u org Role.Collaborator = true) ∧
        (m.role = Role.ReadOnly →
          UserHasPermission u org Role.ReadOnly = true ∧
          UserHasPermission u org Role.Collaborator = false))
    ∧ ((∀ x ∈ org.members, x.userId ≠ u) →
        UserHasPermission u org Role.ReadOnly = false ∧
        UserHasPermission u org Role.Collaborator = false) := by
  constructor
  · intro m hm
    constructor <;> intro hrole <;>
      simp [UserHasPermission, hm, hrole, roleLevel]
  · intro hnm
    have hnone : org.members.find? (fun x => x.userId == u) = none := by
      apply List.find?_eq_none.2
      intro x hx
      simpa using hnm x hx
    simp [UserHasPermission, hnone]

/-- Concrete organization for the permission witness: one Collaborator
(user 10), one ReadOnly member (user 11); user 12 is not a member. -/
def orgW : OrganizationRecord :=
  { id := 5,
    members := [{ userId := 10, role := Role.Collaborator },
                { userId := 11, role := Role.ReadOnly }] }

/-- Witness for C4 on `orgW`. -/
theorem user_has_permission_levels_witness :
    (UserHasPermission 10 orgW Role.ReadOnly = true ∧
        UserHasPermission 10 orgW Role.Collaborator = true)
      ∧ (UserHasPermission 11 orgW Role.ReadOnly = true ∧
        UserHasPermission 11 orgW Role.Collaborator = false)
      ∧ (UserHasPermission 12 orgW Role.ReadOnly = false ∧
        UserHasPermission 12 orgW Role.Collaborator = false) :=
  ⟨((user_has_permission_levels 10 orgW).1
      { userId := 10, role := Role.Collaborator } (by decide)).1 (by decide),
   ((user_has_permission_levels 11 orgW).1
      { userId := 11, role := Role.ReadOnly } (by decide)).2 (by decide),
   (user_has_permission_levels 12 orgW).2 (by decide)⟩

/-- Modelled from the spec: `models.UserRecord` (not in src): identifier,
email, hashed password (`password` holds the bcrypt hash), first/last
name. -/
structure UserRecord where
  id : Nat
  email : String
  password : String
  firstName : String
  lastName : String
deriving DecidableEq, Repr

/-- Modelled from the spec: bcrypt hashing (external library).  The spec
only requires that the stored hash be verifiable against the original
plaintext; we model an injective non-identity encoding. -/
def hashPassword (pw : String) : String :=
  "bcrypt$" ++ pw

/-- Modelled from the spec: `bcrypt.CompareHashAndPassword` — succeeds
exactly when the hash was produced from the plaintext. -/
def checkPasswordHash (storedHash pw : String) : Bool :=
  storedHash == hashPassword pw

/-- Modelled from the spec: a signed token carrying subject identifier
and expiry (`apiutils.CreateJWT`, not in src). -/
structure Token where
  subject : Nat
  expiry : Nat
deriving DecidableEq, Repr

/-- `config.JWTExpireTime` (not in src); the concrete value is irrelevant
to the claims. -/
def JWTExpireTime : Nat := 3600

def CreateJWT (sub : Nat) (expire : Nat) : Token :=
  { subject := sub, expiry := expire }

/-- `common.AuthResponse` (not in src): the response shape shared by
sign-up and sign-in. -/
structure AuthResponse where
  id : Nat
  email : String
  firstName : String
  lastName : String
  token : Token
deriving DecidableEq, Repr

/-- `SignUpRequest` from signup_handler.go:28-33. -/
structure SignUpRequest where
  email : String
  password : String
  firstName : String
  lastName : String
deriving DecidableEq, Repr

/-- Modelled from the spec: `UserModel.FindByEmail` (not in src) — finds
the user with the given email, an error (here `none`) when absent. -/
def FindByEmail (store : List UserRecord) (email : String) : Option UserRecord :=
  store.find? (fun u => u.email == email)

/-- Modelled from the spec: `models.NewUserRecord` (not in src) — hashes
the password and builds the record to insert; the database-assigned
object id is modelled by `nextId`. -/
def NewUserRecord (nextId : Nat) (req : SignUpRequest) : UserRecord :=
  { id := nextId, email := req.email, password := hashPassword req.password,
    firstName := req.firstName, lastName := req.lastName }

/-- Embedding of `SignUpHandler.PostUser` (signup_handler.go:35-72) for a
successfully bound request: Conflict when the email is already
registered, else hash-and-insert and reply Created with the auth
response. -/
def postUser (store : List UserRecord) (nextId : Nat) (req : SignUpRequest) :
    (Nat × Option AuthResponse) × List UserRecord :=
  match FindByEmail store req.email with
  | some _ => ((409, none), store)
  | none =>
    let ur := NewUserRecord nextId req
    ((201, some { id := nextId, email := ur.email, firstName := ur.firstName,
                  lastName := ur.lastName, token := CreateJWT nextId JWTExpireTime }),
      store ++ [ur])

/-- C5: signing up an already-registered email returns Conflict (409) and
leaves the user store unchanged; the first sign-up for an email returns
Created (201) and appends a record whose stored hash verifies against
the original plaintext password. -/
theorem post_user_conflict_or_create (store : List UserRecord) (nextId : Nat)
    (req : SignUpRequest) :
    ((∃ u ∈ store, u.email = req.email) →
        postUser store nextId req = ((409, none), store))
    ∧ ((∀ u ∈ store, u.email ≠ req.email) →
        (postUser store nextId req).1.1 = 201
          ∧ (postUser store nextId req).2 = store ++ [NewUserRecord nextId req]
          ∧ checkPasswordHash (NewUserRecord nextId req).password req.password = true) := by
  constructor
  · rintro ⟨u, hu, hue⟩
    cases hfind : FindByEmail store req.email with
    | some v => simp [postUser, hfind]
    | none =>
      exfalso
      simp only [FindByEmail] at hfind
      have := List.find?_eq_none.1 hfind u hu
      simp [hue] at this
  · intro hall
    have hnone : FindByEmail store req.email = none := by
      apply List.find?_eq_none.2
      intro u hu
      simpa using hall u hu
    refine ⟨?_, ?_, ?_⟩
    · simp [postUser, hnone]
    · simp [postUser, hnone]
    · simp [checkPasswordHash, NewUserRecord]

/-- Concrete user and sign-up request for the C5 witness. -/
def userW : UserRecord :=
  { id := 1, email := "fizi@gmail.com", password := hashPassword "123123",
    firstName := "fizi", lastName := "valores" }

def signUpReqW : SignUpRequest :=
  { email := "fizi@gmail.com", password := "123123",
    firstName := "fizi", lastName := "valores" }

/-- Witness for C5: first sign-up on an empty store succeeds; the second
sign-up with the same email hits Conflict and leaves the store as is. -/
theorem post_user_conflict_or_create_witness :
    ((postUser [] 1 signUpReqW).1.1 = 201
        ∧ (postUser [] 1 signUpReqW).2 = [] ++ [NewUserRecord 1 signUpReqW]
        ∧ checkPasswordHash (NewUserRecord 1 signUpReqW).password signUpReqW.password = true)
      ∧ postUser [userW] 2 signUpReqW = ((409, none), [userW]) :=
  ⟨(post_user_conflict_or_create [] 1 signUpReqW).2 (by decide),
   (post_user_conflict_or_create [userW] 2 signUpReqW).1 ⟨userW, by decide, by decide⟩⟩

/-- `SignInRequest` as exercised by the sign-in tests. -/
structure SignInRequest where
  email : String
  password : String
deriving DecidableEq, Repr

/-- Modelled from the spec: `SignInHandler.PostSignIn` (not in src; spec
4.1 and the sign-in handler tests): NotFound for an unregistered email,
Unauthorized on password-hash mismatch, Ok with the stored user's id,
email, names and a token otherwise. -/
def PostSignIn (store : List UserRecord) (req : SignInRequest) :
    Nat × Option AuthResponse :=
  match FindByEmail store req.email with
  | none => (404, none)
  | some u =>
    if checkPasswordHash u.password req.password then
      (200, some { id := u.id, email := u.email, firstName := u.firstName,
                   lastName := u.lastName, token := CreateJWT u.id JWTExpireTime })
    else (401, none)

/-- C6: sign-in returns NotFound (404) when the email is unregistered,
Unauthorized (401) when the stored hash does not match the supplied
password, and Ok (200) with the stored user's id, email, first and last
name plus a token when both match. -/
theorem post_sign_in_cases (store : List UserRecord) (req : SignInRequest) :
    ((∀ u ∈ store, u.email ≠ req.email) → PostSignIn store req = (404, none))
    ∧ (∀ u, FindByEmail store req.email = some u →
        (checkPasswordHash u.password req.password = false →
          PostSignIn store req = (401, none))
        ∧ (checkPasswordHash u.password req.password = true →
          PostSignIn store req = (200, some { id := u.id, email := u.email,
                                              firstName := u.firstName, lastName := u.lastName,
                                              token := CreateJWT u.id JWTExpireTime }))) := by
  constructor
  · intro hall
    have hnone : FindByEmail store req.email = none := by
      apply List.find?_eq_none.2
      intro u hu
      simpa using hall u hu
    simp [PostSignIn, hnone]
  · intro u hu
    constructor <;> intro hck <;> simp [PostSignIn, hu, hck]

/-- Witness for C6 on the one-user store `[userW]`: unknown email gives
404, wrong password 401, correct password 200 with the stored data. -/
theorem post_sign_in_cases_witness :
    PostSignIn [userW] { email := "ghost@gmail.com", password := "123123" } = (404, none)
      ∧ PostSignIn [userW] { email := "fizi@gmail.com", password := "wrongpass" } = (401, none)
      ∧ PostSignIn [userW] { email := "fizi@gmail.com", password := "123123" }
          = (200, some { id := userW.id, email := userW.email,
                         firstName := userW.firstName, lastName := userW.lastName,
                         token := CreateJWT userW.id JWTExpireTime }) :=
  ⟨(post_sign_in_cases [userW] { email := "ghost@gmail.com", password := "123123" }).1
      (by decide),
   ((post_sign_in_cases [userW] { email := "fizi@gmail.com", password := "wrongpass" }).2
      userW (by decide)).1 (by decide),
   ((post_sign_in_cases [userW] { email := "fizi@gmail.com", password := "123123" }).2
      userW (by decide)).2 (by decide)⟩

/-- The persistent state the flag handlers read and write: the
organization and feature-flag collections. -/
structure AppState where
  orgs : List OrganizationRecord
  flags : List FeatureFlag
deriving DecidableEq, Repr

/-- Modelled from the spec: `OrganizationModel.FindByID` (not in src) —
single-document lookup that surfaces an error (`none`) when no document
matches the id. -/
def findOrgByID (st : AppState) (orgId : Nat) : Option OrganizationRecord :=
  st.orgs.find? (fun o => o.id == orgId)

/-- Modelled from the spec: `FeatureFlagModel.FindByID` (not in src). -/
def findFlagByID (st : AppState) (flagId : Nat) : Option FeatureFlag :=
  st.flags.find? (fun f => f.id == flagId)

/-- Modelled from the spec: `apiutils.GetPaginationParams` (not in src) —
page ≥ 1 and page_size > 0, clamped/defaulted (page 1, page_size 10)
when absent or invalid; the argument is the parsed query value, `none`
when absent or unparsable. -/
def GetPaginationParams (pageQ limitQ : Option Nat) : Nat × Nat :=
  (match pageQ with
   | some p => if 1 ≤ p then p else 1
   | none => 1,
   match limitQ with
   | some s => if 1 ≤ s then s else 10
   | none => 10)

/-- Modelled from the spec: `FeatureFlagModel.FindMany` (not in src) —
the page of flags belonging to the organization: skip (page-1)*limit
records, take limit. -/
def FindMany (st : AppState) (orgId page limit : Nat) : List FeatureFlag :=
  ((st.flags.filter (fun f => f.orgId == orgId)).drop ((page - 1) * limit)).take limit

/-- `ListFeatureFlagResponse` (signup_handler.go:115-120). -/
structure ListFeatureFlagResponse where
  data : List FeatureFlag
  page : Nat
  pageSize : Nat
  total : Nat
deriving DecidableEq, Repr

/-- Embedding of `FeatureFlagHandler.ListFeatureFlags`
(signup_handler.go:122-196).  `userIdOpt` is the outcome of
`GetObjectIDFromContext` (`none` = Unauthorized), `orgIdOpt` the parse
of the organizationID path parameter (`none` = malformed hex).  The Go
handler computes the pagination parameters first; they are written
inline here. -/
def ListFeatureFlags (st : AppState) (userIdOpt orgIdOpt : Option Nat)
    (pageQ limitQ : Option Nat) : Nat × Option ListFeatureFlagResponse :=
  match userIdOpt with
  | none => (401, none)
  | some userId =>
    match orgIdOpt with
    | none => (400, none)
    | some orgId =>
      match findOrgByID st orgId with
      | none => (500, none)
      | some organization =>
        if UserHasPermission userId organization Role.ReadOnly then
          (200, some { data := FindMany st orgId (GetPaginationParams pageQ limitQ).1
                                 (GetPaginationParams pageQ limitQ).2,
                       page := (GetPaginationParams pageQ limitQ).1,
                       pageSize := (GetPaginationParams pageQ limitQ).2,
                       total := (FindMany st orgId (GetPaginationParams pageQ limitQ).1
                                 (GetPaginationParams pageQ limitQ).2).length })
        else (403, none)

/-- `PostFeatureFlagRequest` (signup_handler.go:103-108). -/
structure PostFeatureFlagRequest where
  name : String
  type : FlagType
  defaultValue : String
  rules : List Rule
deriving DecidableEq, Repr

/-- The `validator.Struct` check that `PostFeatureFlag` invokes: name and
default_value required (non-zero), type already restricted by the
`FlagType` embedding, each rule required (`dive,required`). -/
def validatePostRequest (r : PostFeatureFlagRequest) : Bool :=
  r.name != "" && r.defaultValue != "" && r.rules.all (fun rule => ! rule.isZero)

/-- Modelled from the spec: `models.NewFeatureFlagRecord` (not in src) —
a fresh flag owned by the organization, created by the acting user, with
initial version and a revision list seeded with one Draft revision
holding the requested default value and rules. -/
def NewFeatureFlagRecord (nextId : Nat) (name : String) (defaultValue : String)
    (type : FlagType) (rules : List Rule) (orgId userId : Nat) : FeatureFlag :=
  { id := nextId, name := name, type := type, orgId := orgId, userId := userId,
    version := 0,
    revisions := [{ id := nextId, defaultValue := defaultValue, rules := rules,
                    status := RevisionStatus.Draft, userId := userId }],
    deletedAt := none }

/-- Embedding of `FeatureFlagHandler.PostFeatureFlag`
(signup_handler.go:198-293). -/
def PostFeatureFlag (st : AppState) (nextId : Nat) (userIdOpt orgIdOpt : Option Nat)
    (reqOpt : Option PostFeatureFlagRequest) :
    (Nat × Option FeatureFlag) × AppState :=
  match userIdOpt with
  | none => ((401, none), st)
  | some userId =>
    match orgIdOpt with
    | none => ((400, none), st)
    | some orgId =>
      match findOrgByID st orgId with
      | none => ((500, none), st)
      | some organizationRecord =>
        if UserHasPermission userId organizationRecord Role.Collaborator then
          match reqOpt with
          | none => ((400, none), st)
          | some request =>
            if validatePostRequest request then
              ((201, some (NewFeatureFlagRecord nextId request.name
                  request.defaultValue request.type request.rules orgId userId)),
                { st with flags := st.flags ++ [NewFeatureFlagRecord nextId request.name
                  request.defaultValue request.type request.rules orgId userId] })
            else ((400, none), st)
        else ((403, none), st)

/-- `PatchFeatureFlagRequest` (signup_handler.go:110-113).  Its `rules`
field carries a `dive,required` validation tag, but — unlike
`PostFeatureFlag` — the patch handler never invokes the validator. -/
structure PatchFeatureFlagRequest where
  defaultValue : String
  rules : List Rule
deriving DecidableEq, Repr

/-- What `validator.Struct` would check on a `PatchFeatureFlagRequest`
(the `dive,required` tag on rules): every rule non-zero. -/
def validatePatchRequest (r : PatchFeatureFlagRequest) : Bool :=
  r.rules.all (fun rule => ! rule.isZero)

/-- Modelled from the spec: `models.NewRevisionRecord` (not in src) — a
new revision with status Draft, authored by the acting user. -/
def NewRevisionRecord (nextRevId : Nat) (defaultValue : String) (rules : List Rule)
    (userId : Nat) : Revision :=
  { id := nextRevId, defaultValue := defaultValue, rules := rules,
    status := RevisionStatus.Draft, userId := userId }

/-- Modelled from the spec: `FeatureFlagModel.UpdateOne` with a `$push`
on `revisions` — an atomic append to the matched flag's revision list;
an error (`none`) when no document matches (the spec records that a
patch on a nonexistent flag id surfaces as InternalServerError). -/
def pushRevision (st : AppState) (flagId : Nat) (revision : Revision) :
    Option AppState :=
  if st.flags.any (fun f => f.id == flagId) then
    some { st with flags := st.flags.map (fun f =>
      if f.id == flagId then { f with revisions := f.revisions ++ [revision] } else f) }
  else none

/-- Embedding of `FeatureFlagHandler.PatchFeatureFlag`
(signup_handler.go:295-391): after auth, organization lookup, permission
check and id parsing, the bound request is used directly — there is no
validation step — to append a Draft revision. -/
def PatchFeatureFlag (st : AppState) (nextRevId : Nat)
    (userIdOpt orgIdOpt flagIdOpt : Option Nat)
    (reqOpt : Option PatchFeatureFlagRequest) :
    (Nat × Option Revision) × AppState :=
  match userIdOpt with
  | none => ((401, none), st)
  | some userId =>
    match orgIdOpt with
    | none => ((400, none), st)
    | some orgId =>
      match findOrgByID st orgId with
      | none => ((500, none), st)
      | some organizationRecord =>
        if UserHasPermission userId organizationRecord Role.Collaborator then
          match flagIdOpt with
          | none => ((400, none), st)
          | some featureFlagId =>
            match reqOpt with
            | none => ((400, none), st)
            | some request =>
              match pushRevision st featureFlagId
                  (NewRevisionRecord nextRevId request.defaultValue request.rules userId) with
              | none => ((500, none), st)
              | some st2 =>
                ((200, some (NewRevisionRecord nextRevId request.defaultValue
                    request.rules userId)), st2)
        else ((403, none), st)

/-- Modelled from the spec: `FeatureFlagModel.UpdateOne` with a `$set` of
version and revisions on the matched flag; error when nothing matches. -/
def setVersionAndRevisions (st : AppState) (flagId : Nat) (version : Nat)
    (revisions : List Revision) : Option AppState :=
  if st.flags.any (fun f => f.id == flagId) then
    some { st with flags := st.flags.map (fun f =>
      if f.id == flagId then { f with version := version, revisions := revisions } else f) }
  else none

/-- Embedding of `FeatureFlagHandler.ApproveRevision`
(signup_handler.go:393-510): load the flag, run the approval loop and
the unconditional version increment, persist version and revisions. -/
def ApproveRevision (st : AppState) (userIdOpt orgIdOpt flagIdOpt revIdOpt : Option Nat) :
    (Nat × Option FeatureFlag) × AppState :=
  match userIdOpt with
  | none => ((401, none), st)
  | some userId =>
    match orgIdOpt with
    | none => ((400, none), st)
    | some orgId =>
      match findOrgByID st orgId with
      | none => ((500, none), st)
      | some organizationRecord =>
        if UserHasPermission userId organizationRecord Role.Collaborator then
          match flagIdOpt with
          | none => ((400, none), st)
          | some featureFlagId =>
            match revIdOpt with
            | none => ((400, none), st)
            | some revisionId =>
              match findFlagByID st featureFlagId with
              | none => ((500, none), st)
              | some featureFlagRecord =>
                match setVersionAndRevisions st featureFlagId
                    (approveRevisionOnFlag revisionId featureFlagRecord).version
                    (approveRevisionOnFlag revisionId featureFlagRecord).revisions with
                | none => ((500, none), st)
                | some st2 =>
                  ((200, some (approveRevisionOnFlag revisionId featureFlagRecord)), st2)
        else ((403, none), st)

/-- Embedding of `FeatureFlagHandler.DeleteFeatureFlag`
(signup_handler.go:512-603): set the soft-delete timestamp on the
matched flag via `UpdateOne` and reply NoContent. -/
def DeleteFeatureFlag (st : AppState) (now : Nat)
    (userIdOpt orgIdOpt flagIdOpt : Option Nat) : (Nat × Option Unit) × AppState :=
  match userIdOpt with
  | none => ((401, none), st)
  | some userId =>
    match orgIdOpt with
    | none => ((400, none), st)
    | some orgId =>
      match findOrgByID st orgId with
      | none => ((500, none), st)
      | some organizationRecord =>
        if UserHasPermission userId organizationRecord Role.Collaborator then
          match flagIdOpt with
          | none => ((400, none), st)
          | some featureFlagId =>
            if st.flags.any (fun f => f.id == featureFlagId) then
              ((204, some ()), { st with flags := st.flags.map (fun f =>
                if f.id == featureFlagId then { f with deletedAt := some now } else f) })
            else ((500, none), st)
        else ((403, none), st)

/-- C7: every successful listing reply reports total equal to the number
of flags in the returned page (`Total: len(featureFlags)`), and when the
organization has zero flags the reply is data = [], total = 0, echoing
the effective page and page_size. -/
theorem list_total_is_page_length (st : AppState) (userIdOpt orgIdOpt : Option Nat)
    (pageQ limitQ : Option Nat) (resp : ListFeatureFlagResponse)
    (h : ListFeatureFlags st userIdOpt orgIdOpt pageQ limitQ = (200, some resp)) :
    resp.total = resp.data.length
      ∧ (∀ orgId, orgIdOpt = some orgId →
          st.flags.filter (fun f => f.orgId == orgId) = [] →
          resp.data = [] ∧ resp.total = 0
            ∧ resp.page = (GetPaginationParams pageQ limitQ).1
            ∧ resp.pageSize = (GetPaginationParams pageQ limitQ).2) := by
  rcases userIdOpt with _ | userId
  · simp [ListFeatureFlags] at h
  rcases orgIdOpt with _ | orgId
  · simp [ListFeatureFlags] at h
  rcases hfind : findOrgByID st orgId with _ | org
  · simp [ListFeatureFlags, hfind] at h
  by_cases hperm : UserHasPermission userId org Role.ReadOnly = true
  · simp only [ListFeatureFlags, hfind, hperm, if_true, Prod.mk.injEq,
      Option.some.injEq, true_and] at h
    subst h
    refine ⟨rfl, ?_⟩
    intro orgId2 horg hfilter
    injection horg with horg2
    subst horg2
    have hfm : ∀ p l, FindMany st orgId p l = [] := by
      intro p l
      simp [FindMany, hfilter]
    simp [hfm]
  · simp [ListFeatureFlags, hfind, hperm] at h

/-- Concrete data shared by the flag-handler witnesses: organization 1
has user 7 as Collaborator; flag 3 belongs to it and has no revisions. -/
def orgX : OrganizationRecord :=
  { id := 1, members := [{ userId := 7, role := Role.Collaborator }] }

def flagX : FeatureFlag :=
  { id := 3, name := "beta", type := FlagType.boolean, orgId := 1, userId := 7,
    version := 2, revisions := [], deletedAt := none }

def stX : AppState :=
  { orgs := [orgX], flags := [flagX] }

/-- State for the listing witness: organization 1 exists but owns no
flags at all. -/
def stList : AppState :=
  { orgs := [orgX], flags := [] }

def respL : ListFeatureFlagResponse :=
  { data := [], page := 1, pageSize := 10, total := 0 }

/-- Witness for C7: listing organization 1 with page 1 and page_size 10
over an empty flag collection. -/
theorem list_total_is_page_length_witness :
    ListFeatureFlags stList (some 7) (some 1) (some 1) (some 10) = (200, some respL)
      ∧ respL.total = respL.data.length
      ∧ (respL.data = [] ∧ respL.total = 0
          ∧ respL.page = (GetPaginationParams (some 1) (some 10)).1
          ∧ respL.pageSize = (GetPaginationParams (some 1) (some 10)).2) := by
  have h0 : ListFeatureFlags stList (some 7) (some 1) (some 1) (some 10)
      = (200, some respL) := by decide
  have h := list_total_is_page_length stList (some 7) (some 1) (some 1) (some 10) respL h0
  exact ⟨h0, h.1, h.2 1 rfl (by decide)⟩

/-- A request with an invalid (zero-value) rule, which the `dive,required`
tag on `PatchFeatureFlagRequest.Rules` is meant to reject. -/
def zeroRule : Rule :=
  { predicate := "", value := "" }

def badPatchReq : PatchFeatureFlagRequest :=
  { defaultValue := "x", rules := [zeroRule] }

/-- C8 (code defect): the patch request with an invalid empty rule fails
the validation its own struct tag declares, yet `PatchFeatureFlag`
never invokes the validator: it answers 200 and appends the revision
anyway, instead of BadRequest with no append. -/
theorem patch_invalid_rule_not_rejected :
    validatePatchRequest badPatchReq = false
      ∧ (PatchFeatureFlag stX 9 (some 7) (some 1) (some 3) (some badPatchReq)).1.1 = 200
      ∧ (PatchFeatureFlag stX 9 (some 7) (some 1) (some 3) (some badPatchReq)).2.flags
          = [{ flagX with revisions := [NewRevisionRecord 9 "x" [zeroRule] 7] }] := by
  refine ⟨by decide, by decide, by decide⟩

/-- C9: a successful patch answers 200 with exactly the newly created
revision — Draft, authored by the acting user — appends it at the end of
the target flag's revision list, and leaves the organizations, every
other flag, all pre-existing revisions and every version counter
unchanged. -/
theorem patch_success_appends (st : AppState) (nextRevId uid oid fid : Nat)
    (req : PatchFeatureFlagRequest) (rev : Revision) (st2 : AppState)
    (h : PatchFeatureFlag st nextRevId (some uid) (some oid) (some fid) (some req)
          = ((200, some rev), st2)) :
    rev = NewRevisionRecord nextRevId req.defaultValue req.rules uid
      ∧ rev.status = RevisionStatus.Draft
      ∧ rev.userId = uid
      ∧ st2.orgs = st.orgs
      ∧ st2.flags = st.flags.map (fun f =>
          if f.id == fid then { f with revisions := f.revisions ++ [rev] } else f)
      ∧ ∀ f2 ∈ st2.flags, ∃ f1 ∈ st.flags, f2.version = f1.version
          ∧ (f2.revisions = f1.revisions ∨ f2.revisions = f1.revisions ++ [rev]) := by
  rcases hfind : findOrgByID st oid with _ | org
  · simp [PatchFeatureFlag, hfind] at h
  by_cases hperm : UserHasPermission uid org Role.Collaborator = true
  case neg => simp [PatchFeatureFlag, hfind, hperm] at h
  rcases hpush : pushRevision st fid
      (NewRevisionRecord nextRevId req.defaultValue req.rules uid) with _ | st3
  · simp [PatchFeatureFlag, hfind, hperm, hpush] at h
  simp only [PatchFeatureFlag, hfind, hperm, hpush, if_true, Prod.mk.injEq,
    Option.some.injEq] at h
  obtain ⟨⟨-, hrev⟩, hst⟩ := h
  subst hrev
  subst hst
  simp only [pushRevision] at hpush
  split at hpush
  · injection hpush with hst3
    subst hst3
    refine ⟨rfl, rfl, rfl, rfl, rfl, ?_⟩
    intro f2 hf2
    rcases List.mem_map.1 hf2 with ⟨f1, hf1, rfl⟩
    refine ⟨f1, hf1, ?_, ?_⟩
    · by_cases hid : (f1.id == fid) = true <;> simp [hid]
    · by_cases hid : (f1.id == fid) = true <;> simp [hid]
  · simp at hpush

/-- A fully valid patch request and the state it produces on `stX`, for
the C9 witness. -/
def goodRule : Rule :=
  { predicate := "country", value := "BR" }

def goodPatchReq : PatchFeatureFlagRequest :=
  { defaultValue := "y", rules := [goodRule] }

def revY : Revision :=
  NewRevisionRecord 9 "y" [goodRule] 7

def stY : AppState :=
  { orgs := [orgX], flags := [{ flagX with revisions := [revY] }] }

/-- Witness for C9 at the concrete state `stX`. -/
theorem patch_success_appends_witness :
    PatchFeatureFlag stX 9 (some 7) (some 1) (some 3) (some goodPatchReq)
        = ((200, some revY), stY)
      ∧ revY = NewRevisionRecord 9 goodPatchReq.defaultValue goodPatchReq.rules 7
      ∧ revY.status = RevisionStatus.Draft
      ∧ revY.userId = 7
      ∧ stY.orgs = stX.orgs
      ∧ stY.flags = stX.flags.map (fun f =>
          if f.id == 3 then { f with revisions := f.revisions ++ [revY] } else f) := by
  have h0 : PatchFeatureFlag stX 9 (some 7) (some 1) (some 3) (some goodPatchReq)
      = ((200, some revY), stY) := by decide
  have h := patch_success_appends stX 9 7 1 3 goodPatchReq revY stY h0
  exact ⟨h0, h.1, h.2.1, h.2.2.1, h.2.2.2.1, h.2.2.2.2.1⟩

/-- C10: on every flag operation — list, create, patch, approve, delete —
a well-formed organization id that matches no stored organization makes
the handler answer InternalServerError (500), never NotFound, before any
permission check runs and without any state change. -/
theorem missing_org_internal_error (st : AppState) (uid oid : Nat)
    (pageQ limitQ : Option Nat) (nextId : Nat) (postReq : Option PostFeatureFlagRequest)
    (fid rvid : Nat) (patchReq : Option PatchFeatureFlagRequest) (now : Nat)
    (h : findOrgByID st oid = none) :
    ListFeatureFlags st (some uid) (some oid) pageQ limitQ = (500, none)
      ∧ PostFeatureFlag st nextId (some uid) (some oid) postReq = ((500, none), st)
      ∧ PatchFeatureFlag st nextId (some uid) (some oid) (some fid) patchReq
          = ((500, none), st)
      ∧ ApproveRevision st (some uid) (some oid) (some fid) (some rvid)
          = ((500, none), st)
      ∧ DeleteFeatureFlag st now (some uid) (some oid) (some fid) = ((500, none), st) := by
  refine ⟨?_, ?_, ?_, ?_, ?_⟩ <;>
    simp [ListFeatureFlags, PostFeatureFlag, PatchFeatureFlag, ApproveRevision,
      DeleteFeatureFlag, h]

/-- Witness for C10: organization 42 does not exist in `stX`. -/
theorem missing_org_internal_error_witness :
    findOrgByID stX 42 = none
      ∧ ListFeatureFlags stX (some 7) (some 42) none none = (500, none)
      ∧ PostFeatureFlag stX 9 (some 7) (some 42) none = ((500, none), stX)
      ∧ PatchFeatureFlag stX 9 (some 7) (some 42) (some 3) none = ((500, none), stX)
      ∧ ApproveRevision stX (some 7) (some 42) (some 3) (some 1) = ((500, none), stX)
      ∧ DeleteFeatureFlag stX 100 (some 7) (some 42) (some 3) = ((500, none), stX) := by
  have h := missing_org_internal_error stX 7 42 none none 9 none 3 1 none 100 (by decide)
  exact ⟨by decide, h.1, h.2.1, h.2.2.1, h.2.2.2.1, h.2.2.2.2⟩
